import Mathlib

/-!
Verification of `src/app.py` (BITool): a Streamlit front-end whose core is the
function `get_gbif_occurrences`, which builds a GBIF query parameter set,
performs one HTTP GET, and flattens the JSON `results` list into table rows.
The embedding below translates that function, the display of the returned
table, and the CSV serialization used by the download button.
-/

namespace BITool

/-- A JSON leaf value, as stored in an occurrence record's fields.  The
program only carries these values around (it never descends into nested
arrays or objects inside a record's fields), so leaves suffice.  Python
`None` / JSON `null` is `JVal.null`. -/
inductive JVal where
  | null
  | bool (b : Bool)
  | num (q : Rat)
  | str (s : String)
deriving DecidableEq, Repr

/-- A JSON object (Python dict): a key-value list with first-match lookup,
mirroring dict semantics for the distinct keys the program reads. -/
abbrev JRecord := List (String × JVal)

/-- Lookup of the first binding of `key`, embedding both `r.get(k)` and
`k in r`: `none` means the key is absent (Python `k in r` is `False`);
`some JVal.null` means the key is present and bound to `null`. -/
def jsonGet : JRecord → String → Option JVal
  | [], _ => none
  | (k, v) :: rest, key => if k = key then some v else jsonGet rest key

/-- Python `r.get(key)`: the value when present, `None` when absent. -/
def pyGet (r : JRecord) (key : String) : JVal :=
  (jsonGet r key).getD JVal.null

/-- A value in the outbound request parameter dict: the program stores the
species string, the integer limit, and formatted strings. -/
inductive ParamVal where
  | str (s : String)
  | int (n : Int)
deriving DecidableEq, Repr

/-- Lookup in the parameter dict (keys are distinct, first match). -/
def paramGet : List (String × ParamVal) → String → Option ParamVal
  | [], _ => none
  | (k, v) :: rest, key => if k = key then some v else paramGet rest key

/-- The parameter-building portion of `get_gbif_occurrences` (app.py lines
10-23): the base dict `scientificName` / `limit` / `hasCoordinate`, then
`year = f"{year_range[0]},{year_range[1]}"` when a year range is supplied,
then `decimalLatitude = f"{bbox[0]},{bbox[1]}"` and
`decimalLongitude = f"{bbox[2]},{bbox[3]}"` when a bounding box is supplied.
The bounding-box components are formatted with `toString`, standing in for
the Python f-string's `str()`; the element type is any `ToString` type,
mirroring Python's duck typing (the app passes floats from number inputs). -/
def gbifParams {α : Type} [ToString α] (species_name : String) (limit : Int)
    (year_range : Option (Int × Int)) (bbox : Option (α × α × α × α)) :
    List (String × ParamVal) :=
  let params := [("scientificName", ParamVal.str species_name),
                 ("limit", ParamVal.int limit),
                 ("hasCoordinate", ParamVal.str "true")]
  let params := match year_range with
    | some (y0, y1) =>
        params ++ [("year", ParamVal.str (toString y0 ++ "," ++ toString y1))]
    | none => params
  let params := match bbox with
    | some (la0, la1, lo0, lo1) =>
        params ++ [("decimalLatitude",
                      ParamVal.str (toString la0 ++ "," ++ toString la1)),
                   ("decimalLongitude",
                      ParamVal.str (toString lo0 ++ "," ++ toString lo1))]
    | none => params
  params

/-- One row of the assembled table (app.py lines 31-38): the dict appended to
`records` for each kept result. -/
structure Row where
  species : JVal
  lat : JVal
  lon : JVal
  country : JVal
  date : JVal
  basisOfRecord : JVal
deriving DecidableEq, Repr

/-- The loop guard (app.py line 30):
`"decimalLatitude" in result and "decimalLongitude" in result`. -/
def hasCoords (r : JRecord) : Bool :=
  (jsonGet r "decimalLatitude").isSome && (jsonGet r "decimalLongitude").isSome

/-- The row built for a kept result (app.py lines 31-38).  `lat` and `lon`
use direct indexing `result[...]` in the source; under the `hasCoords` guard
the key is present, so `(jsonGet r k).getD JVal.null` returns the very bound
value and agrees with the partial index on every guarded input. -/
def mkRow (r : JRecord) : Row :=
  { species := pyGet r "scientificName"
  , lat := (jsonGet r "decimalLatitude").getD JVal.null
  , lon := (jsonGet r "decimalLongitude").getD JVal.null
  , country := pyGet r "country"
  , date := pyGet r "eventDate"
  , basisOfRecord := pyGet r "basisOfRecord" }

/-- The flattening loop (app.py lines 28-38): walk the results, keep guarded
records, append their rows in order. -/
def buildRecords : List JRecord → List Row
  | [] => []
  | r :: rest =>
      if hasCoords r then mkRow r :: buildRecords rest else buildRecords rest

/-- The parsed response body, of which the program consumes only the
`results` key, via `data.get("results", [])` (app.py line 29): `none` when
the key is absent. -/
structure ApiData where
  results : Option (List JRecord)
deriving DecidableEq

/-- Python `data.get("results", [])`. -/
def dataResults (d : ApiData) : List JRecord :=
  d.results.getD []

/-- A fault of the unguarded I/O calls: `requests.get(url, params=params)`
raising (network failure, timeout) or `response.json()` raising (body not
valid JSON).  The function body has no try/except. -/
inductive Fault where
  | requestError
  | invalidJson
deriving DecidableEq, Repr

/-- The outcome of the single outbound HTTP GET for a given parameter set:
the request raises, the body fails to parse as JSON, or a JSON body. -/
inductive HttpOutcome where
  | requestError
  | invalidJson
  | jsonBody (data : ApiData)

/-- Function `get_gbif_occurrences` (app.py lines 8-40): build the parameter
set, perform the GET (modelled by `net`, the environment's response to the
parameter set), parse, flatten.  A raising call propagates as `Except.error`
since the source has no handler; `Except.ok` carries the assembled table. -/
def get_gbif_occurrences {α : Type} [ToString α] (species_name : String)
    (limit : Int) (year_range : Option (Int × Int)) (bbox : Option (α × α × α × α))
    (net : List (String × ParamVal) → HttpOutcome) : Except Fault (List Row) :=
  let params := gbifParams species_name limit year_range bbox
  match net params with
  | HttpOutcome.requestError => Except.error Fault.requestError
  | HttpOutcome.invalidJson => Except.error Fault.invalidJson
  | HttpOutcome.jsonBody data => Except.ok (buildRecords (dataResults data))

/-- What the app shows for a returned table (app.py lines 67-70):
`st.warning` when `df.empty`, else `st.success` with the record count. -/
inductive Display where
  | warning
  | success (count : Nat)
deriving DecidableEq, Repr

/-- Python `if df.empty: st.warning(...) else: st.success(f"...{len(df)}...")`. -/
def renderResult (rows : List Row) : Display :=
  if rows.isEmpty then Display.warning else Display.success rows.length

/-- Whether the csv writer must quote a cell (QUOTE_MINIMAL, the pandas
`to_csv` default): the cell contains the delimiter, the quote character, or
a line break. -/
def needsQuote (cell : List Char) : Bool :=
  cell.any fun c => c = ',' || c = '"' || c = '\n' || c = '\r'

/-- Quote characters inside a quoted cell are doubled. -/
def escapeQuotes : List Char → List Char
  | [] => []
  | c :: rest =>
      if c = '"' then '"' :: '"' :: escapeQuotes rest else c :: escapeQuotes rest

/-- One serialized cell: quoted with inner quotes doubled when needed,
verbatim otherwise. -/
def renderCell (cell : List Char) : List Char :=
  if needsQuote cell then '"' :: (escapeQuotes cell ++ ['"']) else cell

/-- One serialized record: its cells joined by the comma delimiter. -/
def renderRecord : List (List Char) → List Char
  | [] => []
  | [c] => renderCell c
  | c :: cs => renderCell c ++ ',' :: renderRecord cs

/-- The serialized table: one line per record, each terminated by a newline,
as `df.to_csv` emits. -/
def renderCsv (table : List (List (List Char))) : List Char :=
  (table.map fun rec => renderRecord rec ++ ['\n']).flatten

/-- Scanner state of the CSV reader: outside quotes, inside a quoted cell,
or inside quotes having just read a quote character (which either doubles
into a literal quote or closes the cell). -/
inductive ScanMode where
  | plain
  | quoted
  | closeq
deriving DecidableEq, Repr

/-- The CSV reader (the parsing side of the round-trip, as `pandas.read_csv`
applies to the downloaded text): a single pass with the current cell, the
current record, and the completed records as accumulators. -/
def csvScan : List Char → ScanMode → List Char → List (List Char) →
    List (List (List Char)) → List (List (List Char))
  | [], mode, cell, rec, recs =>
      match mode with
      | ScanMode.plain =>
          if cell = [] ∧ rec = [] then recs else recs ++ [rec ++ [cell]]
      | ScanMode.quoted => recs ++ [rec ++ [cell]]
      | ScanMode.closeq => recs ++ [rec ++ [cell]]
  | c :: rest, mode, cell, rec, recs =>
      match mode with
      | ScanMode.quoted =>
          if c = '"' then csvScan rest ScanMode.closeq cell rec recs
          else csvScan rest ScanMode.quoted (cell ++ [c]) rec recs
      | ScanMode.closeq =>
          if c = '"' then csvScan rest ScanMode.quoted (cell ++ ['"']) rec recs
          else if c = ',' then csvScan rest ScanMode.plain [] (rec ++ [cell]) recs
          else if c = '\n' then
            csvScan rest ScanMode.plain [] [] (recs ++ [rec ++ [cell]])
          else csvScan rest ScanMode.plain (cell ++ [c]) rec recs
      | ScanMode.plain =>
          if c = ',' then csvScan rest ScanMode.plain [] (rec ++ [cell]) recs
          else if c = '\n' then
            csvScan rest ScanMode.plain [] [] (recs ++ [rec ++ [cell]])
          else if c = '"' ∧ cell = [] then csvScan rest ScanMode.quoted cell rec recs
          else csvScan rest ScanMode.plain (cell ++ [c]) rec recs

/-- Re-parsing a CSV text into its table of cells. -/
def csvParse (input : List Char) : List (List (List Char)) :=
  csvScan input ScanMode.plain [] [] []

/-- The text `to_csv` writes for one stored value: Python `str()` of the
value, with `None` written as an empty cell.  The rendering chosen for
numbers stands in for Python's float/int repr; the round-trip theorem holds
for every rendering because quoting handles all characters. -/
def cellString : JVal → String
  | JVal.null => ""
  | JVal.bool b => if b then "True" else "False"
  | JVal.num q => toString q
  | JVal.str s => s

/-- The six cells of one serialized row, in column order. -/
def rowCells (r : Row) : List (List Char) :=
  [(cellString r.species).toList, (cellString r.lat).toList,
   (cellString r.lon).toList, (cellString r.country).toList,
   (cellString r.date).toList, (cellString r.basisOfRecord).toList]

/-- The header line cells `df.to_csv` writes for the assembled table. -/
def csvHeader : List (List Char) :=
  ["species".toList, "lat".toList, "lon".toList, "country".toList,
   "date".toList, "basisOfRecord".toList]

/-- The CSV download payload (app.py lines 83-89): `df.to_csv(index=False)`
emits the header line followed by one line per row, no index column. -/
def to_csv (rows : List Row) : List Char :=
  renderCsv (csvHeader :: rows.map rowCells)

/-- The loop is a filter-map: helper shared by several claims. -/
theorem buildRecords_eq_filterMap (rs : List JRecord) :
    buildRecords rs
      = rs.filterMap (fun r => if hasCoords r then some (mkRow r) else none) := by
  induction rs with
  | nil => rfl
  | cons r rest ih =>
      by_cases h : hasCoords r <;> simp [buildRecords, h, ih]

/-- The loop is equivalently a map over the filtered results. -/
theorem buildRecords_eq_filter_map (rs : List JRecord) :
    buildRecords rs = (rs.filter (fun r => hasCoords r)).map mkRow := by
  induction rs with
  | nil => rfl
  | cons r rest ih =>
      by_cases h : hasCoords r <;> simp [buildRecords, h, ih]

/-- A guarded record contributes its row: helper shared by several claims. -/
theorem mkRow_mem_buildRecords {r : JRecord} {rs : List JRecord}
    (hmem : r ∈ rs) (hc : hasCoords r = true) : mkRow r ∈ buildRecords rs := by
  induction rs with
  | nil => cases hmem
  | cons a rest ih =>
      rcases List.mem_cons.mp hmem with heq | htail
      · subst heq
        simp [buildRecords, hc]
      · by_cases ha : hasCoords a <;> simp [buildRecords, ha, ih htail]

/-- Consuming an escaped cell body inside quotes appends it to the current
cell and leaves the scanner inside quotes. -/
theorem csvScan_escape (s : List Char) :
    ∀ rest cell rec recs,
      csvScan (escapeQuotes s ++ rest) ScanMode.quoted cell rec recs
        = csvScan rest ScanMode.quoted (cell ++ s) rec recs := by
  induction s with
  | nil => intro rest cell rec recs; simp [escapeQuotes]
  | cons c s ih =>
      intro rest cell rec recs
      by_cases hc : c = '"'
      · subst hc
        calc csvScan (escapeQuotes ('"' :: s) ++ rest) ScanMode.quoted cell rec recs
            = csvScan ('"' :: '"' :: (escapeQuotes s ++ rest))
                ScanMode.quoted cell rec recs := by
              simp [escapeQuotes]
          _ = csvScan (escapeQuotes s ++ rest) ScanMode.quoted
                (cell ++ ['"']) rec recs := by
              simp [csvScan]
          _ = csvScan rest ScanMode.quoted ((cell ++ ['"']) ++ s) rec recs :=
              ih rest (cell ++ ['"']) rec recs
          _ = csvScan rest ScanMode.quoted (cell ++ '"' :: s) rec recs := by simp
      · calc csvScan (escapeQuotes (c :: s) ++ rest) ScanMode.quoted cell rec recs
            = csvScan (c :: (escapeQuotes s ++ rest)) ScanMode.quoted cell rec recs := by
              simp [escapeQuotes, hc]
          _ = csvScan (escapeQuotes s ++ rest) ScanMode.quoted (cell ++ [c]) rec recs := by
              simp [csvScan, hc]
          _ = csvScan rest ScanMode.quoted ((cell ++ [c]) ++ s) rec recs :=
              ih rest (cell ++ [c]) rec recs
          _ = csvScan rest ScanMode.quoted (cell ++ c :: s) rec recs := by simp

/-- Consuming an unquoted cell body appends it to the current cell and
leaves the scanner outside quotes. -/
theorem csvScan_raw (s : List Char) (hs : needsQuote s = false) :
    ∀ rest cell rec recs,
      csvScan (s ++ rest) ScanMode.plain cell rec recs
        = csvScan rest ScanMode.plain (cell ++ s) rec recs := by
  induction s with
  | nil => intro rest cell rec recs; simp
  | cons c s ih =>
      intro rest cell rec recs
      simp only [needsQuote, List.any_cons, Bool.or_eq_false_iff,
        decide_eq_false_iff_not] at hs
      obtain ⟨⟨⟨⟨h1, h2⟩, h3⟩, h4⟩, h5⟩ := hs
      have hand : ¬(c = '"' ∧ cell = []) := fun h => h2 h.1
      have h5' : needsQuote s = false := by
        simp only [needsQuote, Bool.or_eq_false_iff, decide_eq_false_iff_not]
        exact h5
      calc csvScan ((c :: s) ++ rest) ScanMode.plain cell rec recs
          = csvScan (s ++ rest) ScanMode.plain (cell ++ [c]) rec recs := by
            simp [csvScan, h1, h3, hand]
        _ = csvScan rest ScanMode.plain ((cell ++ [c]) ++ s) rec recs :=
            ih h5' rest (cell ++ [c]) rec recs
        _ = csvScan rest ScanMode.plain (cell ++ c :: s) rec recs := by simp

/-- Reading one rendered cell followed by a comma finishes that cell. -/
theorem csvScan_cell_comma (s : List Char) :
    ∀ rest rec recs,
      csvScan (renderCell s ++ ',' :: rest) ScanMode.plain [] rec recs
        = csvScan rest ScanMode.plain [] (rec ++ [s]) recs := by
  intro rest rec recs
  by_cases hq : needsQuote s
  · calc csvScan (renderCell s ++ ',' :: rest) ScanMode.plain [] rec recs
        = csvScan ('"' :: (escapeQuotes s ++ '"' :: ',' :: rest))
            ScanMode.plain [] rec recs := by
          simp [renderCell, hq]
      _ = csvScan (escapeQuotes s ++ '"' :: ',' :: rest)
            ScanMode.quoted [] rec recs := by
          simp [csvScan]
      _ = csvScan ('"' :: ',' :: rest) ScanMode.quoted ([] ++ s) rec recs :=
          csvScan_escape s ('"' :: ',' :: rest) [] rec recs
      _ = csvScan rest ScanMode.plain [] (rec ++ [s]) recs := by
          simp [csvScan]
  · calc csvScan (renderCell s ++ ',' :: rest) ScanMode.plain [] rec recs
        = csvScan (s ++ ',' :: rest) ScanMode.plain [] rec recs := by
          simp [renderCell, hq]
      _ = csvScan (',' :: rest) ScanMode.plain ([] ++ s) rec recs :=
          csvScan_raw s (by simpa using hq) (',' :: rest) [] rec recs
      _ = csvScan rest ScanMode.plain [] (rec ++ [s]) recs := by
          simp [csvScan]

/-- Reading one rendered cell followed by a newline finishes that cell and
its record. -/
theorem csvScan_cell_nl (s : List Char) :
    ∀ rest rec recs,
      csvScan (renderCell s ++ '\n' :: rest) ScanMode.plain [] rec recs
        = csvScan rest ScanMode.plain [] [] (recs ++ [rec ++ [s]]) := by
  intro rest rec recs
  by_cases hq : needsQuote s
  · calc csvScan (renderCell s ++ '\n' :: rest) ScanMode.plain [] rec recs
        = csvScan ('"' :: (escapeQuotes s ++ '"' :: '\n' :: rest))
            ScanMode.plain [] rec recs := by
          simp [renderCell, hq]
      _ = csvScan (escapeQuotes s ++ '"' :: '\n' :: rest)
            ScanMode.quoted [] rec recs := by
          simp [csvScan]
      _ = csvScan ('"' :: '\n' :: rest) ScanMode.quoted ([] ++ s) rec recs :=
          csvScan_escape s ('"' :: '\n' :: rest) [] rec recs
      _ = csvScan rest ScanMode.plain [] [] (recs ++ [rec ++ [s]]) := by
          simp [csvScan]
  · calc csvScan (renderCell s ++ '\n' :: rest) ScanMode.plain [] rec recs
        = csvScan (s ++ '\n' :: rest) ScanMode.plain [] rec recs := by
          simp [renderCell, hq]
      _ = csvScan ('\n' :: rest) ScanMode.plain ([] ++ s) rec recs :=
          csvScan_raw s (by simpa using hq) ('\n' :: rest) [] rec recs
      _ = csvScan rest ScanMode.plain [] [] (recs ++ [rec ++ [s]]) := by
          simp [csvScan]

/-- Reading one rendered nonempty record and its newline appends exactly
that record. -/
theorem csvScan_record (cells : List (List Char)) :
    cells ≠ [] → ∀ rest rec recs,
      csvScan (renderRecord cells ++ '\n' :: rest) ScanMode.plain [] rec recs
        = csvScan rest ScanMode.plain [] [] (recs ++ [rec ++ cells]) := by
  induction cells with
  | nil => intro hne; cases hne rfl
  | cons c cs ih =>
      intro _ rest rec recs
      cases cs with
      | nil =>
          calc csvScan (renderRecord [c] ++ '\n' :: rest) ScanMode.plain [] rec recs
              = csvScan (renderCell c ++ '\n' :: rest) ScanMode.plain [] rec recs := by
                simp [renderRecord]
            _ = csvScan rest ScanMode.plain [] [] (recs ++ [rec ++ [c]]) :=
                csvScan_cell_nl c rest rec recs
      | cons c2 cs2 =>
          calc csvScan (renderRecord (c :: c2 :: cs2) ++ '\n' :: rest)
                  ScanMode.plain [] rec recs
              = csvScan (renderCell c ++ ',' :: (renderRecord (c2 :: cs2) ++ '\n' :: rest))
                  ScanMode.plain [] rec recs := by
                simp [renderRecord]
            _ = csvScan (renderRecord (c2 :: cs2) ++ '\n' :: rest)
                  ScanMode.plain [] (rec ++ [c]) recs :=
                csvScan_cell_comma c (renderRecord (c2 :: cs2) ++ '\n' :: rest) rec recs
            _ = csvScan rest ScanMode.plain [] []
                  (recs ++ [(rec ++ [c]) ++ (c2 :: cs2)]) :=
                ih (by simp) rest (rec ++ [c]) recs
            _ = csvScan rest ScanMode.plain [] [] (recs ++ [rec ++ (c :: c2 :: cs2)]) := by
                simp

/-- Reading a whole rendered table of nonempty records appends exactly that
table. -/
theorem csvScan_table (table : List (List (List Char)))
    (h : ∀ rec ∈ table, rec ≠ []) :
    ∀ recs, csvScan (renderCsv table) ScanMode.plain [] [] recs = recs ++ table := by
  induction table with
  | nil => intro recs; simp [renderCsv, csvScan]
  | cons rec t ih =>
      intro recs
      calc csvScan (renderCsv (rec :: t)) ScanMode.plain [] [] recs
          = csvScan (renderRecord rec ++ '\n' :: renderCsv t)
              ScanMode.plain [] [] recs := by
            simp [renderCsv]
        _ = csvScan (renderCsv t) ScanMode.plain [] [] (recs ++ [[] ++ rec]) :=
            csvScan_record rec (h rec (by simp)) (renderCsv t) [] recs
        _ = csvScan (renderCsv t) ScanMode.plain [] [] (recs ++ [rec]) := by simp
        _ = (recs ++ [rec]) ++ t :=
            ih (fun r hr => h r (List.mem_cons_of_mem _ hr)) (recs ++ [rec])
        _ = recs ++ rec :: t := by simp

/-- Serialization followed by re-parsing is the identity on tables of
nonempty records. -/
theorem csvParse_renderCsv (table : List (List (List Char)))
    (h : ∀ rec ∈ table, rec ≠ []) : csvParse (renderCsv table) = table := by
  have hh := csvScan_table table h []
  simpa [csvParse] using hh

/-- C1. The parameter set contains the species name verbatim under
`scientificName`, and whenever a year range `(ystart, yend)` is supplied it
contains `year` bound to exactly the string `"ystart,yend"`. -/
theorem c1_species_and_year {α : Type} [ToString α] (species_name : String)
    (limit : Int) (year_range : Option (Int × Int)) (bbox : Option (α × α × α × α)) :
    paramGet (gbifParams species_name limit year_range bbox) "scientificName"
      = some (ParamVal.str species_name) ∧
    ∀ ystart yend : Int, year_range = some (ystart, yend) →
      paramGet (gbifParams species_name limit year_range bbox) "year"
        = some (ParamVal.str (toString ystart ++ "," ++ toString yend)) := by
  constructor
  · rcases year_range with _ | ⟨y0, y1⟩ <;> rcases bbox with _ | ⟨a, b, c, d⟩ <;>
      simp [gbifParams, paramGet]
  · rintro ystart yend rfl
    rcases bbox with _ | ⟨a, b, c, d⟩ <;> simp [gbifParams, paramGet]

/-- Witness for C1 at a concrete input: species `"Danaus plexippus"`,
year range `(2000, 2020)`, no bounding box. -/
theorem c1_species_and_year_witness :
    paramGet (gbifParams "Danaus plexippus" 500 (some (2000, 2020))
        (none : Option (Int × Int × Int × Int))) "scientificName"
      = some (ParamVal.str "Danaus plexippus") ∧
    paramGet (gbifParams "Danaus plexippus" 500 (some (2000, 2020))
        (none : Option (Int × Int × Int × Int))) "year"
      = some (ParamVal.str "2000,2020") := by
  have h := c1_species_and_year (α := Int) "Danaus plexippus" 500
    (some (2000, 2020)) none
  refine ⟨h.1, ?_⟩
  have h2 := h.2 2000 2020 rfl
  have hs : (toString (2000 : Int) ++ "," ++ toString (2020 : Int)) = "2000,2020" := by
    rfl
  rw [hs] at h2
  exact h2

/-- C4. For species `"Danaus plexippus"`, year range `(2000, 2020)` and
no bounding box, the parameter set includes `year = "2000,2020"` and has no
`decimalLatitude` and no `decimalLongitude` entries. -/
theorem c4_example_params :
    paramGet (gbifParams "Danaus plexippus" 500 (some (2000, 2020))
        (none : Option (Int × Int × Int × Int))) "year"
      = some (ParamVal.str "2000,2020") ∧
    paramGet (gbifParams "Danaus plexippus" 500 (some (2000, 2020))
        (none : Option (Int × Int × Int × Int))) "decimalLatitude" = none ∧
    paramGet (gbifParams "Danaus plexippus" 500 (some (2000, 2020))
        (none : Option (Int × Int × Int × Int))) "decimalLongitude" = none := by
  refine ⟨?_, by simp [gbifParams, paramGet], by simp [gbifParams, paramGet]⟩
  simp only [gbifParams, paramGet]
  rfl

/-- C5. The parameter set always contains the scientific name, the limit,
and `hasCoordinate = "true"`; the `year` entry is present exactly when a year
range is supplied, and the `decimalLatitude` / `decimalLongitude` entries are
present exactly when a bounding box is supplied. -/
theorem c5_param_presence {α : Type} [ToString α] (species_name : String)
    (limit : Int) (year_range : Option (Int × Int)) (bbox : Option (α × α × α × α)) :
    paramGet (gbifParams species_name limit year_range bbox) "scientificName"
      = some (ParamVal.str species_name) ∧
    paramGet (gbifParams species_name limit year_range bbox) "limit"
      = some (ParamVal.int limit) ∧
    paramGet (gbifParams species_name limit year_range bbox) "hasCoordinate"
      = some (ParamVal.str "true") ∧
    (paramGet (gbifParams species_name limit year_range bbox) "year").isSome
      = year_range.isSome ∧
    (paramGet (gbifParams species_name limit year_range bbox) "decimalLatitude").isSome
      = bbox.isSome ∧
    (paramGet (gbifParams species_name limit year_range bbox) "decimalLongitude").isSome
      = bbox.isSome := by
  rcases year_range with _ | ⟨y0, y1⟩ <;> rcases bbox with _ | ⟨a, b, c, d⟩ <;>
    simp [gbifParams, paramGet]

/-- C8. For every bounding box `(lat_min, lat_max, lon_min, lon_max)`,
the parameter set binds `decimalLatitude` to `"lat_min,lat_max"` and
`decimalLongitude` to `"lon_min,lon_max"`; no hypothesis relates the minimum
to the maximum, so no min-before-max validation takes place. -/
theorem c8_bbox_params {α : Type} [ToString α] (species_name : String)
    (limit : Int) (year_range : Option (Int × Int)) (lat_min lat_max lon_min lon_max : α) :
    paramGet (gbifParams species_name limit year_range
        (some (lat_min, lat_max, lon_min, lon_max))) "decimalLatitude"
      = some (ParamVal.str (toString lat_min ++ "," ++ toString lat_max)) ∧
    paramGet (gbifParams species_name limit year_range
        (some (lat_min, lat_max, lon_min, lon_max))) "decimalLongitude"
      = some (ParamVal.str (toString lon_min ++ "," ++ toString lon_max)) := by
  rcases year_range with _ | ⟨y0, y1⟩ <;> simp [gbifParams, paramGet]

/-- Witness for C8 at a concrete inverted box (`lat_min > lat_max`,
`lon_min > lon_max`): the parameters are still built, unvalidated. -/
theorem c8_bbox_params_witness :
    paramGet (gbifParams "Danaus plexippus" 500 (none : Option (Int × Int))
        (some ((50 : Int), (20 : Int), (-60 : Int), (-130 : Int)))) "decimalLatitude"
      = some (ParamVal.str "50,20") ∧
    paramGet (gbifParams "Danaus plexippus" 500 (none : Option (Int × Int))
        (some ((50 : Int), (20 : Int), (-60 : Int), (-130 : Int)))) "decimalLongitude"
      = some (ParamVal.str "-60,-130") := by
  have h := c8_bbox_params (α := Int) "Danaus plexippus" 500 none 50 20 (-60) (-130)
  have hla : (toString (50 : Int) ++ "," ++ toString (20 : Int)) = "50,20" := by rfl
  have hlo : (toString (-60 : Int) ++ "," ++ toString (-130 : Int)) = "-60,-130" := by
    rfl
  rw [hla, hlo] at h
  exact h

/-- C2. The flattener keeps exactly the records carrying both coordinate
keys (every record lacking one is excluded, every emitted row stems from a
record carrying both); in particular a results list of two entries, one of
which is missing `decimalLongitude`, yields exactly one row, in either
order. -/
theorem c2_coordinate_filter (rs : List JRecord) :
    buildRecords rs = (rs.filter (fun r => hasCoords r)).map mkRow ∧
    (∀ row ∈ buildRecords rs, ∃ r, r ∈ rs ∧ hasCoords r = true ∧ row = mkRow r) ∧
    (∀ r1 r2 : JRecord, hasCoords r1 = true → jsonGet r2 "decimalLongitude" = none →
      buildRecords [r1, r2] = [mkRow r1] ∧ buildRecords [r2, r1] = [mkRow r1]) := by
  refine ⟨buildRecords_eq_filter_map rs, ?_, ?_⟩
  · intro row hrow
    rw [buildRecords_eq_filter_map] at hrow
    rcases List.mem_map.mp hrow with ⟨r, hr, hrw⟩
    rcases List.mem_filter.mp hr with ⟨hmem, hc⟩
    exact ⟨r, hmem, hc, hrw.symm⟩
  · intro r1 r2 h1 h2
    have hc2 : hasCoords r2 = false := by
      simp [hasCoords, h2]
    constructor <;> simp [buildRecords, h1, hc2]

/-- Witness for C2: a concrete two-entry results list in which the second
entry is missing `decimalLongitude` flattens to exactly one row. -/
theorem c2_coordinate_filter_witness :
    buildRecords [[("scientificName", JVal.str "Danaus plexippus"),
                   ("decimalLatitude", JVal.num 10),
                   ("decimalLongitude", JVal.num 20)],
                  [("scientificName", JVal.str "Danaus plexippus"),
                   ("decimalLatitude", JVal.num 30)]]
      = [mkRow [("scientificName", JVal.str "Danaus plexippus"),
                ("decimalLatitude", JVal.num 10),
                ("decimalLongitude", JVal.num 20)]] := by
  have h := (c2_coordinate_filter
      [[("scientificName", JVal.str "Danaus plexippus"),
        ("decimalLatitude", JVal.num 10),
        ("decimalLongitude", JVal.num 20)],
       [("scientificName", JVal.str "Danaus plexippus"),
        ("decimalLatitude", JVal.num 30)]]).2.2
      [("scientificName", JVal.str "Danaus plexippus"),
       ("decimalLatitude", JVal.num 10),
       ("decimalLongitude", JVal.num 20)]
      [("scientificName", JVal.str "Danaus plexippus"),
       ("decimalLatitude", JVal.num 30)]
      (by decide) (by decide)
  exact h.1

/-- C6. An emitted row is exactly the projection of the six consumed
fields: `species`, `country`, `date` and `basisOfRecord` take the record's
bound value when the key is present and `null` (Python `None`) when absent,
`lat` and `lon` take the bound coordinate values, and the row of a guarded
record belonging to the results list is in the output. -/
theorem c6_row_projection (r : JRecord) :
    (∀ v, jsonGet r "scientificName" = some v → (mkRow r).species = v) ∧
    (jsonGet r "scientificName" = none → (mkRow r).species = JVal.null) ∧
    (∀ v, jsonGet r "decimalLatitude" = some v → (mkRow r).lat = v) ∧
    (∀ v, jsonGet r "decimalLongitude" = some v → (mkRow r).lon = v) ∧
    (∀ v, jsonGet r "country" = some v → (mkRow r).country = v) ∧
    (jsonGet r "country" = none → (mkRow r).country = JVal.null) ∧
    (∀ v, jsonGet r "eventDate" = some v → (mkRow r).date = v) ∧
    (jsonGet r "eventDate" = none → (mkRow r).date = JVal.null) ∧
    (∀ v, jsonGet r "basisOfRecord" = some v → (mkRow r).basisOfRecord = v) ∧
    (jsonGet r "basisOfRecord" = none → (mkRow r).basisOfRecord = JVal.null) ∧
    (∀ rs : List JRecord, r ∈ rs → hasCoords r = true → mkRow r ∈ buildRecords rs) := by
  refine ⟨?_, ?_, ?_, ?_, ?_, ?_, ?_, ?_, ?_, ?_,
    fun _ hmem hc => mkRow_mem_buildRecords hmem hc⟩
  all_goals
    first
      | (intro v hv; simp [mkRow, pyGet, hv])
      | (intro hv; simp [mkRow, pyGet, hv])

/-- Witness for C6 at a concrete record: present fields project to their
values, the absent `country` becomes `null`, and the row is in the output
of a singleton results list. -/
theorem c6_row_projection_witness :
    (mkRow [("scientificName", JVal.str "Danaus plexippus"),
            ("decimalLatitude", JVal.num 10),
            ("decimalLongitude", JVal.num 20),
            ("basisOfRecord", JVal.str "HUMAN_OBSERVATION")]).species
        = JVal.str "Danaus plexippus" ∧
    (mkRow [("scientificName", JVal.str "Danaus plexippus"),
            ("decimalLatitude", JVal.num 10),
            ("decimalLongitude", JVal.num 20),
            ("basisOfRecord", JVal.str "HUMAN_OBSERVATION")]).country = JVal.null ∧
    mkRow [("scientificName", JVal.str "Danaus plexippus"),
           ("decimalLatitude", JVal.num 10),
           ("decimalLongitude", JVal.num 20),
           ("basisOfRecord", JVal.str "HUMAN_OBSERVATION")]
      ∈ buildRecords [[("scientificName", JVal.str "Danaus plexippus"),
                       ("decimalLatitude", JVal.num 10),
                       ("decimalLongitude", JVal.num 20),
                       ("basisOfRecord", JVal.str "HUMAN_OBSERVATION")]] := by
  have h := c6_row_projection
    [("scientificName", JVal.str "Danaus plexippus"),
     ("decimalLatitude", JVal.num 10),
     ("decimalLongitude", JVal.num 20),
     ("basisOfRecord", JVal.str "HUMAN_OBSERVATION")]
  refine ⟨h.1 (JVal.str "Danaus plexippus") (by decide), ?_, ?_⟩
  · exact h.2.2.2.2.2.1 (by decide)
  · exact h.2.2.2.2.2.2.2.2.2.2 _ (by simp) (by decide)

/-- C9. The coordinate guard tests key presence only: a record whose
`decimalLatitude` and `decimalLongitude` keys are present but bound to
`null` passes the guard, its row is emitted whenever it is in the results
list, and the row carries `null` latitude and longitude. -/
theorem c9_null_coordinates (r : JRecord)
    (hla : jsonGet r "decimalLatitude" = some JVal.null)
    (hlo : jsonGet r "decimalLongitude" = some JVal.null) :
    hasCoords r = true ∧
    (∀ rs : List JRecord, r ∈ rs → mkRow r ∈ buildRecords rs) ∧
    (mkRow r).lat = JVal.null ∧ (mkRow r).lon = JVal.null := by
  have hc : hasCoords r = true := by simp [hasCoords, hla, hlo]
  exact ⟨hc, fun rs hmem => mkRow_mem_buildRecords hmem hc,
    by simp [mkRow, hla], by simp [mkRow, hlo]⟩

/-- Witness for C9 at a concrete record with null-valued coordinate keys. -/
theorem c9_null_coordinates_witness :
    hasCoords [("decimalLatitude", JVal.null), ("decimalLongitude", JVal.null)]
        = true ∧
    mkRow [("decimalLatitude", JVal.null), ("decimalLongitude", JVal.null)]
      ∈ buildRecords [[("decimalLatitude", JVal.null),
                       ("decimalLongitude", JVal.null)]] ∧
    (mkRow [("decimalLatitude", JVal.null), ("decimalLongitude", JVal.null)]).lat
        = JVal.null := by
  have h := c9_null_coordinates
    [("decimalLatitude", JVal.null), ("decimalLongitude", JVal.null)]
    (by decide) (by decide)
  exact ⟨h.1, h.2.1 _ (by simp), h.2.2.1⟩

/-- C10. The flattener is an order-preserving filter-map over the
results list: the output equals `filterMap` of the guard-and-project step
(which keeps the relative order of the source records), and the output has
at most as many rows as the results list has entries. -/
theorem c10_order_preserving_filterMap (rs : List JRecord) :
    buildRecords rs
        = rs.filterMap (fun r => if hasCoords r then some (mkRow r) else none) ∧
    (buildRecords rs).length ≤ rs.length := by
  refine ⟨buildRecords_eq_filterMap rs, ?_⟩
  rw [buildRecords_eq_filterMap]
  exact List.length_filterMap_le _ _

/-- C7. `get_gbif_occurrences` has no error handling: when the GET
raises, or the body is not valid JSON, the fault propagates out unrecovered
and no table is returned; a JSON body always yields a table; and the only
user-visible failure display is the empty-table warning, shown exactly when
the assembled table has zero rows. -/
theorem c7_no_error_handling {α : Type} [ToString α] (species_name : String)
    (limit : Int) (year_range : Option (Int × Int)) (bbox : Option (α × α × α × α))
    (net : List (String × ParamVal) → HttpOutcome) :
    (net (gbifParams species_name limit year_range bbox) = HttpOutcome.requestError →
      get_gbif_occurrences species_name limit year_range bbox net
        = Except.error Fault.requestError) ∧
    (net (gbifParams species_name limit year_range bbox) = HttpOutcome.invalidJson →
      get_gbif_occurrences species_name limit year_range bbox net
        = Except.error Fault.invalidJson) ∧
    (∀ d, net (gbifParams species_name limit year_range bbox) = HttpOutcome.jsonBody d →
      get_gbif_occurrences species_name limit year_range bbox net
        = Except.ok (buildRecords (dataResults d))) ∧
    (∀ rows : List Row, renderResult rows = Display.warning ↔ rows = []) := by
  refine ⟨?_, ?_, ?_, ?_⟩
  · intro h
    simp [get_gbif_occurrences, h]
  · intro h
    simp [get_gbif_occurrences, h]
  · intro d h
    simp [get_gbif_occurrences, h]
  · intro rows
    cases rows <;> simp [renderResult]

/-- Witness for C7: a network that raises makes the concrete call return
the propagated error, and the empty table displays the warning. -/
theorem c7_no_error_handling_witness :
    get_gbif_occurrences "Danaus plexippus" 500 (some (2000, 2020))
        (none : Option (Int × Int × Int × Int))
        (fun _ => HttpOutcome.requestError)
      = Except.error Fault.requestError ∧
    renderResult [] = Display.warning := by
  have h := c7_no_error_handling (α := Int) "Danaus plexippus" 500
    (some (2000, 2020)) none (fun _ => HttpOutcome.requestError)
  exact ⟨h.1 rfl, (h.2.2.2 []).mpr rfl⟩

/-- C3. Round-trip of the CSV download: serializing the assembled table
with header and no index, then re-parsing the text, reproduces the header
and every row's six field values (in their serialized text form, which is
what the file carries), and in particular the same row count. -/
theorem c3_csv_round_trip (rows : List Row) :
    csvParse (to_csv rows) = csvHeader :: rows.map rowCells ∧
    (csvParse (to_csv rows)).length = rows.length + 1 := by
  have hne : ∀ rec ∈ csvHeader :: rows.map rowCells, rec ≠ [] := by
    intro rec hrec
    rcases List.mem_cons.mp hrec with h | h
    · subst h
      simp [csvHeader]
    · rcases List.mem_map.mp h with ⟨r, _, hr⟩
      subst hr
      simp [rowCells]
  have h1 := csvParse_renderCsv (csvHeader :: rows.map rowCells) hne
  have h2 : csvParse (to_csv rows) = csvHeader :: rows.map rowCells := h1
  refine ⟨h2, ?_⟩
  rw [h2]
  simp

end BITool
